import Mathlib

/-!
Shallow embedding of the replay engine in
src/backend/app/api/websocket.py: the ReplayState data model, the
position interpolator, the frame assembler, the WebSocket command
handler and tick loop, and the connection registry.  Times, speeds and
telemetry samples are modelled as exact rationals; Python dicts are
modelled as association lists.
-/

namespace F1Replay

/-- A LapData row as used by the replay engine: driver id, 1-based lap
number, nullable session-relative start time and duration (ms), race
position during the lap, tyre compound and gap fields. -/
structure Lap where
  driver_id : Int
  lap_number : Nat
  lap_start_time_ms : Option ℚ
  lap_time_ms : Option ℚ
  position : Option Nat
  compound : Option String
  gap_to_leader_ms : Option ℚ
  interval_ms : Option ℚ
deriving DecidableEq

/-- The parsed telemetry record for one (driver, lap): the parallel
timestamp and value arrays built in load_session_data. -/
structure Telemetry where
  timestamps : List ℚ
  pos_x : List ℚ
  pos_y : List ℚ
  speed : List ℚ
  gear : List ℚ
  drs : List ℚ
deriving DecidableEq

/-- The per-driver info dict built from SessionResult rows. -/
structure DriverInfo where
  driver_id : Int
  team_id : Int
  position : Nat
deriving DecidableEq

/-- The mutable state of a single replay session (class ReplayState). -/
structure ReplayState where
  session_id : Int
  current_time_ms : ℚ
  replay_speed : ℚ
  is_playing : Bool
  total_duration_ms : ℚ
  total_laps : Nat
  current_lap : Nat
  drivers : List (Int × DriverInfo)
  laps : List Lap
  telemetry : List (Int × List (Nat × Telemetry))
deriving DecidableEq

/-- Association-list lookup, modelling Python dict indexing /
dict.get. -/
def dget {K V : Type} [DecidableEq K] : List (K × V) → K → Option V
  | [], _ => none
  | (k1, v) :: rest, k => if k1 = k then some v else dget rest k

/-- Association-list update, modelling Python dict assignment
(replace the entry if the key is present, append otherwise). -/
def dset {K V : Type} [DecidableEq K] : List (K × V) → K → V → List (K × V)
  | [], k, v => [(k, v)]
  | (k1, v1) :: rest, k, v =>
      if k1 = k then (k, v) :: rest else (k1, v1) :: dset rest k v

/-- Association-list deletion, modelling the Python del statement. -/
def ddel {K V : Type} [DecidableEq K] : List (K × V) → K → List (K × V)
  | [], _ => []
  | (k1, v) :: rest, k => if k1 = k then ddel rest k else (k1, v) :: ddel rest k

/-- The lap-containment test from interpolate_position: the lap has a
non-null start time and time_ms lies in the closed interval from the
start to the start plus the duration, a null duration counting as 0
(Python: lap.lap_time_ms or 0). -/
def lapContainsB (lap : Lap) (time_ms : ℚ) : Bool :=
  match lap.lap_start_time_ms with
  | none => false
  | some st => decide (st ≤ time_ms ∧ time_ms ≤ st + lap.lap_time_ms.getD 0)

/-- The lap-location loop of interpolate_position: among the laps of
the given driver, in list order, the first lap whose interval contains
time_ms (laps with a null start time are skipped). -/
def locatedLap (state : ReplayState) (driver_id : Int) (time_ms : ℚ) : Option Lap :=
  (state.laps.filter (fun l => decide (l.driver_id = driver_id))).find?
    (fun lap => lapContainsB lap time_ms)

/-- The telemetry lookup of interpolate_position:
state.telemetry.get(driver_id, empty dict).get(lap_number). -/
def telFor (state : ReplayState) (driver_id : Int) (lap_number : Nat) : Option Telemetry :=
  dget ((dget state.telemetry driver_id).getD []) lap_number

/-- The index-selection loop of interpolate_position: scan the
timestamps with running index i and accumulator idx; at each sample,
break (returning idx) when the timestamp exceeds the offset, otherwise
set idx to the current index and continue. -/
def selAux : List ℚ → ℚ → Nat → Nat → Nat
  | [], _, _, idx => idx
  | t :: rest, off, i, idx => if off < t then idx else selAux rest off (i + 1) i

/-- The car-state dict returned by interpolate_position. -/
structure CarState where
  x : ℚ
  y : ℚ
  speed_kmh : ℚ
  gear : ℚ
  drs_active : Bool
  lap_number : Nat
  position : Nat
  compound : Option String
  gap_to_leader_ms : Option ℚ
  interval_ms : Option ℚ
deriving DecidableEq

/-- interpolate_position: locate the containing lap, look up its
telemetry, select the sample index with the scan loop, and read each
value array at that index with a bounds check defaulting to 0. -/
def interpolate_position (state : ReplayState) (driver_id : Int) (time_ms : ℚ) :
    Option CarState :=
  match locatedLap state driver_id time_ms with
  | none => none
  | some current_lap =>
    match telFor state driver_id current_lap.lap_number with
    | none => none
    | some tel =>
      if tel.timestamps = [] then none
      else
        let lap_time_offset := time_ms - current_lap.lap_start_time_ms.getD 0
        let idx := selAux tel.timestamps lap_time_offset 0 0
        some {
          x := tel.pos_x.getD idx 0
          y := tel.pos_y.getD idx 0
          speed_kmh := tel.speed.getD idx 0
          gear := tel.gear.getD idx 0
          drs_active := decide (0 < tel.drs.getD idx 0)
          lap_number := current_lap.lap_number
          position := current_lap.position.getD 0
          compound := current_lap.compound
          gap_to_leader_ms := current_lap.gap_to_leader_ms
          interval_ms := current_lap.interval_ms }

/-- A JSON-like value, the payload type of the car dicts assembled in
generate_frame. -/
inductive DVal where
  | num : ℚ → DVal
  | vnat : Nat → DVal
  | vint : Int → DVal
  | str : String → DVal
  | bool : Bool → DVal
  | null : DVal
deriving DecidableEq

/-- Lift an optional rational field into a DVal (Python None becomes
JSON null). -/
def optNum : Option ℚ → DVal
  | none => DVal.null
  | some q => DVal.num q

/-- Lift an optional string field into a DVal. -/
def optStr : Option String → DVal
  | none => DVal.null
  | some s => DVal.str s

/-- The car dict appended to the frame's car list in generate_frame,
with exactly the keys written by the source (note: no lap_number
key). -/
def frameCar (driver_id : Int) (pos : CarState) : List (String × DVal) :=
  [("driver_id", DVal.vint driver_id),
   ("driver_code", DVal.str ("D" ++ toString driver_id)),
   ("team_color", DVal.str "#808080"),
   ("x", DVal.num pos.x),
   ("y", DVal.num pos.y),
   ("heading", DVal.vnat 0),
   ("speed_kmh", DVal.num pos.speed_kmh),
   ("position", DVal.vnat pos.position),
   ("gap_to_leader_ms", optNum pos.gap_to_leader_ms),
   ("interval_ms", optNum pos.interval_ms),
   ("compound", optStr pos.compound),
   ("drs_active", DVal.bool pos.drs_active)]

/-- The car list of generate_frame: iterate the driver dict in order,
interpolate each driver at the current time, and keep the cars whose
interpolation succeeded. -/
def buildCars (state : ReplayState) : List (List (String × DVal)) :=
  state.drivers.filterMap
    (fun p => (interpolate_position state p.1 state.current_time_ms).map (frameCar p.1))

/-- The sort key of the leader selection in generate_frame:
the position entry of the car dict if truthy, else 999 (the car dict
always carries a vnat position, so other shapes fall in the 999
default arm). -/
def leaderKey (car : List (String × DVal)) : Nat :=
  match dget car "position" with
  | some (DVal.vnat p) => if p = 0 then 999 else p
  | _ => 999

/-- Python min over a non-empty list by a key, returning the first
element attaining the minimum. -/
def minByKey {α : Type} (key : α → Nat) (c : α) (rest : List α) : α :=
  rest.foldl (fun best x => if key x < key best then x else best) c

/-- The value stored into state.current_lap by generate_frame:
leader.get("lap_number", 0) or 0 — an absent key gives the default 0,
and the trailing or 0 is the identity on naturals. -/
def newCurrentLap (leader : List (String × DVal)) : Nat :=
  match (dget leader "lap_number").getD (DVal.vnat 0) with
  | DVal.vnat n => n
  | _ => 0

/-- Python int() truncation toward zero on a rational. -/
def pyIntTrunc (q : ℚ) : Int :=
  if 0 ≤ q then ⌊q⌋ else -⌊-q⌋

/-- Python format spec 02d: pad a small non-negative integer with a
leading zero. -/
def pad2 (n : Int) : String :=
  if 0 ≤ n ∧ n < 10 then "0" ++ toString n else toString n

/-- The elapsed-time formatting of generate_frame: floor the current
time to whole seconds and render HH:MM:SS. -/
def formatElapsed (time_ms : ℚ) : String :=
  let total_sec : Int := pyIntTrunc (time_ms / 1000)
  let hours := Int.ediv total_sec 3600
  let minutes := Int.ediv (Int.emod total_sec 3600) 60
  let seconds := Int.emod total_sec 60
  pad2 hours ++ ":" ++ pad2 minutes ++ ":" ++ pad2 seconds

/-- The frame dict returned by generate_frame (the data part of the
type "frame" message). -/
structure Frame where
  timestamp_ms : ℚ
  current_lap : Nat
  total_laps : Nat
  elapsed_time_str : String
  replay_speed : ℚ
  cars : List (List (String × DVal))
deriving DecidableEq

/-- generate_frame: build the car list, format the elapsed time,
update state.current_lap from the presumed leader when the car list is
non-empty, and return the frame.  The state mutation performed by the
Python function is modelled by returning the updated state alongside
the frame. -/
def generate_frame (state : ReplayState) : Frame × ReplayState :=
  let cars := buildCars state
  let lap : Nat :=
    match cars with
    | [] => state.current_lap
    | c :: rest => newCurrentLap (minByKey leaderKey c rest)
  let state1 := { state with current_lap := lap }
  ({ timestamp_ms := state.current_time_ms
     current_lap := lap
     total_laps := state.total_laps
     elapsed_time_str := formatElapsed state.current_time_ms
     replay_speed := state.replay_speed
     cars := cars }, state1)

/-- An inbound control message, as dispatched on data.get("action") in
replay_websocket.  The seek and speed payload fields are optional
because the client may omit them (data.get supplies a default). -/
inductive Command where
  | play : Command
  | pause : Command
  | stop : Command
  | seek : Option ℚ → Command
  | speed : Option ℚ → Command
  | other : String → Command
deriving DecidableEq

/-- The command dispatch of replay_websocket: play and pause toggle
the flag, stop pauses and rewinds to 0, seek stores
data.get("time_ms", 0) as is, speed stores the clamped
data.get("speed", 1.0), and unrecognized actions are ignored. -/
def handleCommand (state : ReplayState) : Command → ReplayState
  | Command.play => { state with is_playing := true }
  | Command.pause => { state with is_playing := false }
  | Command.stop => { state with is_playing := false, current_time_ms := 0 }
  | Command.seek t => { state with current_time_ms := t.getD 0 }
  | Command.speed s =>
      { state with replay_speed := max (1/10) (min 60 (s.getD 1)) }
  | Command.other _ => state

/-- An outbound message emitted by the loop body (the init and error
messages of connection setup are outside the loop). -/
inductive OutMsg where
  | status : Bool → ℚ → ℚ → OutMsg
  | frame : Frame → OutMsg
  | finished : OutMsg
deriving DecidableEq

/-- The time-advancement step of one loop iteration: if playing, add
dt seconds of wall clock scaled by 1000 and the speed multiplier; when
the clock reaches the total duration, clamp to it, pause and emit
finished, otherwise generate and emit a frame. -/
def tick (state : ReplayState) (dt : ℚ) : ReplayState × List OutMsg :=
  if state.is_playing then
    let t := state.current_time_ms + dt * 1000 * state.replay_speed
    if state.total_duration_ms ≤ t then
      ({ state with current_time_ms := state.total_duration_ms, is_playing := false },
       [OutMsg.finished])
    else
      let moved := { state with current_time_ms := t }
      let fr := generate_frame moved
      (fr.2, [OutMsg.frame fr.1])
  else (state, [])

/-- One iteration's input: either a command arrived before the frame
interval elapsed, or the receive timed out; dt is the wall-clock time
(seconds) since the previous iteration. -/
inductive LoopInput where
  | cmd : Command → ℚ → LoopInput
  | timeout : ℚ → LoopInput
deriving DecidableEq

/-- One iteration of the main loop of replay_websocket: apply the
command if one arrived and acknowledge it with a status message, then
advance the clock. -/
def loopStep (state : ReplayState) : LoopInput → ReplayState × List OutMsg
  | LoopInput.cmd c dt =>
      let s1 := handleCommand state c
      let ack := OutMsg.status s1.is_playing s1.current_time_ms s1.replay_speed
      let r := tick s1 dt
      (r.1, ack :: r.2)
  | LoopInput.timeout dt => tick state dt

/-- Run the main loop over a sequence of iteration inputs, collecting
all emitted messages in order. -/
def runLoop (state : ReplayState) : List LoopInput → ReplayState × List OutMsg
  | [] => (state, [])
  | inp :: rest =>
      let r1 := loopStep state inp
      let r2 := runLoop r1.1 rest
      (r2.1, r1.2 ++ r2.2)

/-- Count the finished messages in an output trace. -/
def countFinished (msgs : List OutMsg) : Nat :=
  msgs.countP (fun m => decide (m = OutMsg.finished))

/-- An iteration input that carries neither a seek nor a stop
command. -/
def NoSeekStop : LoopInput → Prop
  | LoopInput.cmd (Command.seek _) _ => False
  | LoopInput.cmd Command.stop _ => False
  | _ => True

instance : DecidablePred NoSeekStop := by
  intro inp
  match inp with
  | LoopInput.cmd (Command.seek _) _ => exact Decidable.isFalse (fun h => h)
  | LoopInput.cmd Command.stop _ => exact Decidable.isFalse (fun h => h)
  | LoopInput.cmd Command.play _ => exact Decidable.isTrue trivial
  | LoopInput.cmd Command.pause _ => exact Decidable.isTrue trivial
  | LoopInput.cmd (Command.speed _) _ => exact Decidable.isTrue trivial
  | LoopInput.cmd (Command.other _) _ => exact Decidable.isTrue trivial
  | LoopInput.timeout _ => exact Decidable.isTrue trivial

/-- The wall-clock delta of an iteration input. -/
def dtOf : LoopInput → ℚ
  | LoopInput.cmd _ dt => dt
  | LoopInput.timeout dt => dt

/-- The connection registry (class ConnectionManager): WebSocket
connections keyed by the client id string, replay states keyed by the
integer archived session id. -/
structure ConnectionManager where
  active_connections : List (String × Nat)
  replay_states : List (Int × ReplayState)
deriving DecidableEq

/-- ConnectionManager.connect: store the websocket (modelled by a
numeric handle) under the client id. -/
def cmConnect (m : ConnectionManager) (client_id : String) (ws : Nat) : ConnectionManager :=
  { m with active_connections := dset m.active_connections client_id ws }

/-- ConnectionManager.disconnect: drop the client id entry if
present. -/
def cmDisconnect (m : ConnectionManager) (client_id : String) : ConnectionManager :=
  { m with active_connections := ddel m.active_connections client_id }

/-- The registration performed by replay_websocket after a successful
load: accept the connection and store the freshly loaded replay state
under the session id. -/
def cmRegister (m : ConnectionManager) (client_id : String) (ws : Nat)
    (session_id : Int) (state : ReplayState) : ConnectionManager :=
  let m1 := cmConnect m client_id ws
  { m1 with replay_states := dset m1.replay_states session_id state }

/-- The finally block of replay_websocket: disconnect the client and
delete the replay-state entry for the session id if present. -/
def cmCleanup (m : ConnectionManager) (client_id : String) (session_id : Int) :
    ConnectionManager :=
  let m1 := cmDisconnect m client_id
  { m1 with replay_states := ddel m1.replay_states session_id }

/-- Modelled from the spec: the clamp function the spec uses to state
the seek contract (clamp(t, lo, hi)). -/
def specClamp (t lo hi : ℚ) : ℚ :=
  max lo (min hi t)

/-- Fixture lap: driver 1, lap 3, start 0, duration 90000 ms, race
position 1 (the scenario of the spec's testable-properties section). -/
def lap1 : Lap :=
  { driver_id := 1, lap_number := 3, lap_start_time_ms := some 0,
    lap_time_ms := some 90000, position := some 1, compound := none,
    gap_to_leader_ms := none, interval_ms := none }

/-- Fixture telemetry: timestamps [0, 500, 1000] with positions
(0,0), (10,0), (20,0). -/
def tel1 : Telemetry :=
  { timestamps := [0, 500, 1000], pos_x := [0, 10, 20], pos_y := [0, 0, 0],
    speed := [100, 110, 120], gear := [3, 4, 5], drs := [0, 0, 1] }

/-- Fixture replay state: one driver, one lap, telemetry present,
clock at 750 ms, current_lap previously 7. -/
def fixtureState : ReplayState :=
  { session_id := 1, current_time_ms := 750, replay_speed := 1,
    is_playing := false, total_duration_ms := 90000, total_laps := 50,
    current_lap := 7,
    drivers := [(1, { driver_id := 1, team_id := 2, position := 1 })],
    laps := [lap1],
    telemetry := [(1, [(3, tel1)])] }

/-- Fixture telemetry with a value array shorter than the timestamp
array: two timestamps but a single x sample. -/
def telShort : Telemetry :=
  { timestamps := [0, 500], pos_x := [7], pos_y := [], speed := [],
    gear := [], drs := [] }

/-- Fixture lap for the short-telemetry scenario: driver 1, lap 1,
interval [0, 90000]. -/
def lapShort : Lap :=
  { driver_id := 1, lap_number := 1, lap_start_time_ms := some 0,
    lap_time_ms := some 90000, position := some 1, compound := none,
    gap_to_leader_ms := none, interval_ms := none }

/-- Fixture replay state whose telemetry value arrays are shorter than
its timestamp array. -/
def stateShort : ReplayState :=
  { session_id := 1, current_time_ms := 600, replay_speed := 1,
    is_playing := false, total_duration_ms := 90000, total_laps := 50,
    current_lap := 0,
    drivers := [(1, { driver_id := 1, team_id := 2, position := 1 })],
    laps := [lapShort],
    telemetry := [(1, [(1, telShort)])] }

/-- Fixture replay state nearing the end of its run: playing at
89000 ms of a 90000 ms session. -/
def stateNearEnd : ReplayState :=
  { session_id := 1, current_time_ms := 89000, replay_speed := 1,
    is_playing := true, total_duration_ms := 90000, total_laps := 50,
    current_lap := 0, drivers := [], laps := [], telemetry := [] }

/-- Fixture replay state paused exactly at the end of its run. -/
def stateAtEnd : ReplayState :=
  { session_id := 1, current_time_ms := 90000, replay_speed := 1,
    is_playing := false, total_duration_ms := 90000, total_laps := 50,
    current_lap := 0, drivers := [], laps := [], telemetry := [] }

/-! Association-list lemmas used for the registry claims. -/

lemma dget_dset_self {K V : Type} [DecidableEq K] (m : List (K × V)) (k : K) (v : V) :
    dget (dset m k v) k = some v := by
  induction m with
  | nil => simp [dset, dget]
  | cons p rest ih =>
    obtain ⟨k1, v1⟩ := p
    by_cases h : k1 = k <;> simp [dset, dget, h, ih]

lemma dget_dset_ne {K V : Type} [DecidableEq K] (m : List (K × V)) {k k2 : K} (v : V)
    (h : k ≠ k2) : dget (dset m k v) k2 = dget m k2 := by
  induction m with
  | nil => simp [dset, dget, h]
  | cons p rest ih =>
    obtain ⟨k1, v1⟩ := p
    by_cases h1 : k1 = k <;> simp [dset, dget, h1, h, ih]

lemma dget_ddel_self {K V : Type} [DecidableEq K] (m : List (K × V)) (k : K) :
    dget (ddel m k) k = none := by
  induction m with
  | nil => simp [ddel, dget]
  | cons p rest ih =>
    obtain ⟨k1, v1⟩ := p
    by_cases h : k1 = k <;> simp [ddel, dget, h, ih]

lemma dget_ddel_ne {K V : Type} [DecidableEq K] (m : List (K × V)) {k k2 : K}
    (h : k ≠ k2) : dget (ddel m k) k2 = dget m k2 := by
  induction m with
  | nil => simp [ddel, dget]
  | cons p rest ih =>
    obtain ⟨k1, v1⟩ := p
    by_cases h1 : k1 = k
    · subst h1
      simp [ddel, dget, h, ih]
    · by_cases h2 : k1 = k2
      · subst h2
        simp [ddel, dget, h1, ih]
      · simp [ddel, dget, h1, h2, ih]

/-! The sample-selection loop computes the predecessor of the index of
the first timestamp exceeding the offset. -/

lemma selAux_eq (off : ℚ) :
    ∀ (ts : List ℚ) (i idx : Nat),
      selAux ts off i idx =
        match ts.findIdx (fun x => decide (off < x)) with
        | 0 => idx
        | Nat.succ k => i + k := by
  intro ts
  induction ts with
  | nil => intro i idx; rfl
  | cons t rest ih =>
    intro i idx
    by_cases h : off < t
    · simp [selAux, h, List.findIdx_cons]
    · have hb : (decide (off < t)) = false := by simp [h]
      rw [List.findIdx_cons, hb]
      simp only [selAux, if_neg h, cond_false]
      rw [ih (i + 1) i]
      cases hk : rest.findIdx (fun x => decide (off < x)) with
      | zero =>
        show i = i + 0
        omega
      | succ k =>
        show i + 1 + k = i + (k + 1)
        omega

/-- On a non-decreasing list, getD with default 0 is monotone below the
length. -/
lemma sorted_getD_mono {ts : List ℚ} (h : List.Sorted (· ≤ ·) ts) {i j : Nat}
    (hij : i ≤ j) (hj : j < ts.length) : ts.getD i 0 ≤ ts.getD j 0 := by
  have hi : i < ts.length := lt_of_le_of_lt hij hj
  rw [List.getD_eq_getElem _ _ hi, List.getD_eq_getElem _ _ hj]
  rcases eq_or_lt_of_le hij with heq | hlt
  · subst heq; exact le_refl _
  · have := h.rel_get_of_lt (a := ⟨i, hi⟩) (b := ⟨j, hj⟩) hlt
    simpa [List.get_eq_getElem] using this

/-- The car state interpolated from the fixture at time 750: the step
sample at timestamp 500. -/
def cs750 : CarState :=
  { x := 10, y := 0, speed_kmh := 110, gear := 4, drs_active := false,
    lap_number := 3, position := 1, compound := none,
    gap_to_leader_ms := none, interval_ms := none }

lemma interp_fixture_eval : interpolate_position fixtureState 1 750 = some cs750 := by
  norm_num [interpolate_position, locatedLap, telFor, lapContainsB, dget,
    fixtureState, lap1, tel1, selAux, List.filter, List.find?, cs750]
  intro h
  exact absurd h (by simp)

lemma buildCars_fixture_eval : buildCars fixtureState = [frameCar 1 cs750] := by
  have ht : fixtureState.current_time_ms = (750 : ℚ) := rfl
  have hd : fixtureState.drivers = [(1, { driver_id := 1, team_id := 2, position := 1 })] := rfl
  simp [buildCars, ht, hd, interp_fixture_eval]

lemma newCurrentLap_fixture : newCurrentLap (minByKey leaderKey (frameCar 1 cs750) []) = 0 := by
  simp [minByKey, newCurrentLap, frameCar, dget]

lemma frame_fixture_lap_eval : (generate_frame fixtureState).1.current_lap = 0 := by
  show (match buildCars fixtureState with
         | [] => fixtureState.current_lap
         | c :: rest => newCurrentLap (minByKey leaderKey c rest)) = 0
  rw [buildCars_fixture_eval]
  exact newCurrentLap_fixture

lemma frame_fixture_state_eval :
    (generate_frame fixtureState).2 = { fixtureState with current_lap := 0 } := by
  show ({ fixtureState with current_lap :=
           (match buildCars fixtureState with
            | [] => fixtureState.current_lap
            | c :: rest => newCurrentLap (minByKey leaderKey c rest)) } : ReplayState)
      = { fixtureState with current_lap := 0 }
  rw [buildCars_fixture_eval]
  simp [newCurrentLap_fixture]

/-! Claim theorems. -/

/-- C1 counterexample: seeking to -5 on a session of total duration
90000 stores -5 itself, not clamp(-5, 0, 90000) = 0, so the stored
time lies outside [0, total_duration_ms]. -/
theorem seek_negative_unclamped_cex :
    (handleCommand fixtureState (Command.seek (some (-5)))).current_time_ms = -5 ∧
    specClamp (-5) 0 fixtureState.total_duration_ms = 0 ∧
    ((-5 : ℚ) ≠ 0) ∧ ¬(0 ≤ (-5 : ℚ)) := by
  refine ⟨rfl, ?_, by norm_num, by norm_num⟩
  norm_num [specClamp, fixtureState]

/-- C1 (amended): a seek command with value t stores t itself into
current_time_ms, performing no clamping at all, and leaves the
playing/paused flag unchanged. -/
theorem seek_sets_time_exactly (s : ReplayState) (t : ℚ) :
    (handleCommand s (Command.seek (some t))).current_time_ms = t ∧
    (handleCommand s (Command.seek (some t))).is_playing = s.is_playing :=
  ⟨rfl, rfl⟩

/-- C2: on a state whose single emitted car comes from lap number 3,
the assembled frame carries current_lap = 0, because the car dicts
built by generate_frame carry no lap_number key and the leader lookup
falls back to its default 0. -/
theorem frame_current_lap_zero_bug :
    (interpolate_position fixtureState 1 750).map (fun c => c.lap_number) = some 3 ∧
    (generate_frame fixtureState).1.cars ≠ [] ∧
    (generate_frame fixtureState).1.current_lap = 0 ∧
    (∀ (d : Int) (c : CarState), dget (frameCar d c) "lap_number" = none) := by
  refine ⟨?_, ?_, frame_fixture_lap_eval, ?_⟩
  · rw [interp_fixture_eval]; rfl
  · show buildCars fixtureState ≠ []
    rw [buildCars_fixture_eval]
    simp
  · intro d c
    simp [frameCar, dget]

/-- C4 counterexample: generate_frame is not a pure read: on the
fixture state with current_lap = 7 and one resolvable car, it rewrites
current_lap, so the resulting session state differs from the input. -/
theorem generate_frame_mutates_state_cex :
    fixtureState.current_lap = 7 ∧
    (generate_frame fixtureState).2.current_lap = 0 ∧
    (generate_frame fixtureState).2 ≠ fixtureState := by
  have h0 : (generate_frame fixtureState).2.current_lap = 0 := by
    rw [frame_fixture_state_eval]
  refine ⟨rfl, h0, ?_⟩
  intro h
  have h7 : (generate_frame fixtureState).2.current_lap = fixtureState.current_lap := by
    rw [h]
  rw [h0, show fixtureState.current_lap = 7 from rfl] at h7
  exact absurd h7 (by norm_num)

/-- C4 (amended): generate_frame leaves current_time_ms, is_playing,
replay_speed, total_duration_ms, total_laps and the whole dataset
(drivers, laps, telemetry) unchanged; the one field it writes is
current_lap, and when the assembled car list is empty even that is
unchanged, so the whole state is returned intact. -/
theorem generate_frame_pure_except_current_lap (s : ReplayState) :
    ((generate_frame s).2.current_time_ms = s.current_time_ms ∧
     (generate_frame s).2.is_playing = s.is_playing ∧
     (generate_frame s).2.replay_speed = s.replay_speed ∧
     (generate_frame s).2.total_duration_ms = s.total_duration_ms ∧
     (generate_frame s).2.total_laps = s.total_laps ∧
     (generate_frame s).2.drivers = s.drivers ∧
     (generate_frame s).2.laps = s.laps ∧
     (generate_frame s).2.telemetry = s.telemetry) ∧
    ((generate_frame s).1.cars = [] → (generate_frame s).2 = s) := by
  constructor
  · exact ⟨rfl, rfl, rfl, rfl, rfl, rfl, rfl, rfl⟩
  · intro h
    have hc : buildCars s = [] := h
    show ({ s with current_lap :=
      match buildCars s with
      | [] => s.current_lap
      | c :: rest => newCurrentLap (minByKey leaderKey c rest) } : ReplayState) = s
    rw [hc]

/-- C4 witness: the near-end fixture has no drivers, so its frame has
no cars and generate_frame returns the state unchanged. -/
theorem generate_frame_pure_except_current_lap_witness :
    (generate_frame stateNearEnd).1.cars = [] ∧
    (generate_frame stateNearEnd).2 = stateNearEnd :=
  ⟨rfl, (generate_frame_pure_except_current_lap stateNearEnd).2 rfl⟩

/-- C9: a speed command stores clamp(x, 0.1, 60.0) as the multiplier,
which therefore always lies in [0.1, 60.0]; in particular 1000 is
clamped to 60.0 and 0 to 0.1. -/
theorem set_speed_clamped (s : ReplayState) (x : ℚ) :
    (handleCommand s (Command.speed (some x))).replay_speed = specClamp x (1/10) 60 ∧
    1/10 ≤ (handleCommand s (Command.speed (some x))).replay_speed ∧
    (handleCommand s (Command.speed (some x))).replay_speed ≤ 60 ∧
    (handleCommand s (Command.speed (some 1000))).replay_speed = 60 ∧
    (handleCommand s (Command.speed (some 0))).replay_speed = 1/10 := by
  refine ⟨rfl, le_max_left _ _, ?_, ?_, ?_⟩
  · exact max_le (by norm_num) (min_le_left _ _)
  · show max (1/10 : ℚ) (min 60 1000) = 60
    norm_num
  · show max (1/10 : ℚ) (min 60 0) = 1/10
    norm_num

/-- C10: a seek command whose payload carries no time_ms field stores
0 into current_time_ms (the same time value stop resets to) and leaves
the playing/paused flag unchanged. -/
theorem seek_missing_time_resets (s : ReplayState) :
    (handleCommand s (Command.seek none)).current_time_ms = 0 ∧
    (handleCommand s (Command.seek none)).is_playing = s.is_playing ∧
    (handleCommand s (Command.seek none)).current_time_ms
      = (handleCommand s Command.stop).current_time_ms :=
  ⟨rfl, rfl, rfl⟩

/-- C5 counterexample: two viewers of archived session 5 connect; the
registry holds a single replay-state entry for both (the second
registration overwrote the first viewer's distinct state), and the
first viewer's cleanup deletes that shared entry. -/
theorem registry_shared_entry_cex :
    dget (cmRegister (cmRegister ⟨[], []⟩ "5_a" 1 5 fixtureState)
        "5_b" 2 5 stateShort).replay_states 5 = some stateShort ∧
    (cmRegister (cmRegister ⟨[], []⟩ "5_a" 1 5 fixtureState)
        "5_b" 2 5 stateShort).replay_states.length = 1 ∧
    dget (cmCleanup (cmRegister (cmRegister ⟨[], []⟩ "5_a" 1 5 fixtureState)
        "5_b" 2 5 stateShort) "5_a" 5).replay_states 5 = none ∧
    fixtureState ≠ stateShort := by
  refine ⟨rfl, rfl, rfl, ?_⟩
  intro h
  have hts : fixtureState.current_time_ms = stateShort.current_time_ms := by rw [h]
  norm_num [fixtureState, stateShort] at hts

/-- C5 (amended): the registry keys connections by client id but
replay states by archived session id: registering a second viewer of
the same session overwrites the first viewer's replay-state entry
(while both keep distinct connection entries), and cleaning up either
connection deletes the shared replay-state entry; the other viewer's
connection entry survives but its replay-state entry does not. -/
theorem registry_keyed_by_session (m : ConnectionManager) (c1 c2 : String)
    (w1 w2 : Nat) (sid : Int) (s1 s2 : ReplayState) (h : c1 ≠ c2) :
    dget (cmRegister (cmRegister m c1 w1 sid s1) c2 w2 sid s2).replay_states sid
      = some s2 ∧
    dget (cmRegister (cmRegister m c1 w1 sid s1) c2 w2 sid s2).active_connections c1
      = some w1 ∧
    dget (cmRegister (cmRegister m c1 w1 sid s1) c2 w2 sid s2).active_connections c2
      = some w2 ∧
    dget (cmCleanup (cmRegister (cmRegister m c1 w1 sid s1) c2 w2 sid s2)
        c1 sid).replay_states sid = none ∧
    dget (cmCleanup (cmRegister (cmRegister m c1 w1 sid s1) c2 w2 sid s2)
        c1 sid).active_connections c2 = some w2 := by
  refine ⟨?_, ?_, ?_, ?_, ?_⟩
  · show dget (dset (dset m.replay_states sid s1) sid s2) sid = some s2
    exact dget_dset_self _ _ _
  · show dget (dset (dset m.active_connections c1 w1) c2 w2) c1 = some w1
    rw [dget_dset_ne _ _ (Ne.symm h)]
    exact dget_dset_self _ _ _
  · show dget (dset (dset m.active_connections c1 w1) c2 w2) c2 = some w2
    exact dget_dset_self _ _ _
  · show dget (ddel (dset (dset m.replay_states sid s1) sid s2) sid) sid = none
    exact dget_ddel_self _ _
  · show dget (ddel (dset (dset m.active_connections c1 w1) c2 w2) c1) c2 = some w2
    rw [dget_ddel_ne _ h]
    exact dget_dset_self _ _ _

/-- C5 witness: the amended registry behavior at two concrete clients
of session 7. -/
theorem registry_keyed_by_session_witness :
    ("7_a" : String) ≠ "7_b" ∧
    (dget (cmRegister (cmRegister ⟨[], []⟩ "7_a" 1 7 fixtureState)
        "7_b" 2 7 stateShort).replay_states 7 = some stateShort ∧
     dget (cmRegister (cmRegister ⟨[], []⟩ "7_a" 1 7 fixtureState)
        "7_b" 2 7 stateShort).active_connections "7_a" = some 1 ∧
     dget (cmRegister (cmRegister ⟨[], []⟩ "7_a" 1 7 fixtureState)
        "7_b" 2 7 stateShort).active_connections "7_b" = some 2 ∧
     dget (cmCleanup (cmRegister (cmRegister ⟨[], []⟩ "7_a" 1 7 fixtureState)
        "7_b" 2 7 stateShort) "7_a" 7).replay_states 7 = none ∧
     dget (cmCleanup (cmRegister (cmRegister ⟨[], []⟩ "7_a" 1 7 fixtureState)
        "7_b" 2 7 stateShort) "7_a" 7).active_connections "7_b" = some 2) :=
  ⟨by decide,
   registry_keyed_by_session ⟨[], []⟩ "7_a" "7_b" 1 2 7 fixtureState stateShort (by decide)⟩

/-- C6 counterexample: with timestamps [0, 500] but a single x sample
[7], interpolating at 600 selects index 1, which is out of range for
pos_x; the emitted x is the default 0, not the array's last element
7. -/
theorem short_array_not_last_cex :
    (interpolate_position stateShort 1 600).map (fun c => c.x) = some 0 ∧
    telShort.pos_x.getLast? = some 7 ∧
    ((0 : ℚ) ≠ 7) := by
  refine ⟨?_, rfl, by norm_num⟩
  norm_num [interpolate_position, locatedLap, telFor, lapContainsB, dget,
    stateShort, lapShort, telShort, selAux, List.filter, List.find?]
  exact ⟨_, ⟨by simp, rfl⟩, rfl⟩

/-- C6 (amended): when the selected sample index is not smaller than
the length of the pos_x value array, the bounds-checked read emits the
default 0 — not the array's last element — and the lookup still
succeeds, returning a car state rather than failing. -/
theorem interpolate_short_array_default (s : ReplayState) (d : Int) (t : ℚ)
    (lap : Lap) (tel : Telemetry)
    (hlap : locatedLap s d t = some lap)
    (htel : telFor s d lap.lap_number = some tel)
    (hne : tel.timestamps ≠ [])
    (hlen : tel.pos_x.length ≤
      selAux tel.timestamps (t - lap.lap_start_time_ms.getD 0) 0 0) :
    (interpolate_position s d t).map (fun c => c.x) = some 0 := by
  simp only [interpolate_position, hlap, htel, if_neg hne]
  simp [List.getElem?_eq_none hlen]

/-- C6 witness: the amended bounds-check behavior at the concrete
short-telemetry fixture. -/
theorem interpolate_short_array_default_witness :
    locatedLap stateShort 1 600 = some lapShort ∧
    telFor stateShort 1 lapShort.lap_number = some telShort ∧
    telShort.timestamps ≠ [] ∧
    telShort.pos_x.length ≤
      selAux telShort.timestamps (600 - lapShort.lap_start_time_ms.getD 0) 0 0 ∧
    (interpolate_position stateShort 1 600).map (fun c => c.x) = some 0 := by
  have h1 : locatedLap stateShort 1 600 = some lapShort := by
    norm_num [locatedLap, stateShort, lapShort, lapContainsB, List.filter, List.find?]
  have h2 : telFor stateShort 1 lapShort.lap_number = some telShort := by
    norm_num [telFor, stateShort, lapShort, telShort, dget]
  have h3 : telShort.timestamps ≠ [] := by simp [telShort]
  have h4 : telShort.pos_x.length ≤
      selAux telShort.timestamps (600 - lapShort.lap_start_time_ms.getD 0) 0 0 := by
    norm_num [telShort, lapShort, selAux]
  exact ⟨h1, h2, h3, h4,
    interpolate_short_array_default stateShort 1 600 lapShort telShort h1 h2 h3 h4⟩

/-- C7: on a non-empty, non-decreasing timestamp list, the selection
loop returns an in-range index that is the greatest index whose
timestamp is at or below the offset whenever such an index exists
(so ties resolve to the highest matching index), and returns 0 when
the offset precedes the first timestamp; on the spec fixture with
timestamps [0, 500, 1000] and positions (0,0), (10,0), (20,0),
interpolating at 750 yields position (10, 0). -/
theorem step_interpolation_greatest_index :
    (∀ (ts : List ℚ) (off : ℚ), ts ≠ [] → List.Sorted (· ≤ ·) ts →
      (selAux ts off 0 0 < ts.length ∧
       (∀ j, j < ts.length → ts.getD j 0 ≤ off → j ≤ selAux ts off 0 0) ∧
       ((∃ j, j < ts.length ∧ ts.getD j 0 ≤ off) →
         ts.getD (selAux ts off 0 0) 0 ≤ off) ∧
       (off < ts.getD 0 0 → selAux ts off 0 0 = 0))) ∧
    (interpolate_position fixtureState 1 750).map (fun c => (c.x, c.y))
      = some (10, 0) := by
  constructor
  · intro ts off hne hsort
    have hlen0 : 0 < ts.length := List.length_pos.mpr hne
    rcases hk : ts.findIdx (fun x => decide (off < x)) with _ | m
    · have hsel0 : selAux ts off 0 0 = 0 := by rw [selAux_eq, hk]
      have hw : ts.findIdx (fun x => decide (off < x)) < ts.length := by
        rw [hk]; exact hlen0
      have hp0 : off < ts.getD 0 0 := by
        have hge := @List.findIdx_getElem ℚ (fun x => decide (off < x)) ts hw
        rw [List.getD_eq_getElem _ _ hlen0]
        have h0 : ts[ts.findIdx (fun x => decide (off < x))] = ts[0] := by
          congr 1
        rw [h0] at hge
        exact of_decide_eq_true hge
      refine ⟨by rw [hsel0]; exact hlen0, ?_, ?_, fun _ => hsel0⟩
      · intro j hj hle
        exfalso
        have hmono : ts.getD 0 0 ≤ ts.getD j 0 :=
          sorted_getD_mono hsort (Nat.zero_le j) hj
        exact absurd hle (not_le.mpr (lt_of_lt_of_le hp0 hmono))
      · rintro ⟨j, hj, hle⟩
        exfalso
        have hmono : ts.getD 0 0 ≤ ts.getD j 0 :=
          sorted_getD_mono hsort (Nat.zero_le j) hj
        exact absurd hle (not_le.mpr (lt_of_lt_of_le hp0 hmono))
    · have hselm : selAux ts off 0 0 = m := by
        have h1 := selAux_eq off ts 0 0
        rw [hk] at h1
        simpa using h1
      have hmlt : m < ts.length := by
        have hle := @List.findIdx_le_length ℚ (fun x => decide (off < x)) ts
        rw [hk] at hle
        omega
      refine ⟨by rw [hselm]; exact hmlt, ?_, ?_, ?_⟩
      · intro j hj hle
        rw [hselm]
        by_contra hgt
        push_neg at hgt
        have hkj : ts.findIdx (fun x => decide (off < x)) ≤ j := by rw [hk]; omega
        have hw : ts.findIdx (fun x => decide (off < x)) < ts.length :=
          lt_of_le_of_lt hkj hj
        have hptrue := @List.findIdx_getElem ℚ (fun x => decide (off < x)) ts hw
        have hlt : off < ts.getD (ts.findIdx (fun x => decide (off < x))) 0 := by
          rw [List.getD_eq_getElem _ _ hw]
          exact of_decide_eq_true hptrue
        have hmono : ts.getD (ts.findIdx (fun x => decide (off < x))) 0 ≤ ts.getD j 0 :=
          sorted_getD_mono hsort hkj hj
        exact absurd hle (not_le.mpr (lt_of_lt_of_le hlt hmono))
      · intro _
        rw [hselm]
        have hmfind : m < ts.findIdx (fun x => decide (off < x)) := by rw [hk]; omega
        have hfalse := List.not_of_lt_findIdx hmfind
        rw [List.getD_eq_getElem _ _ hmlt]
        exact not_lt.mp (of_decide_eq_false hfalse)
      · intro h0
        exfalso
        have h0find : 0 < ts.findIdx (fun x => decide (off < x)) := by rw [hk]; omega
        have hfalse := List.not_of_lt_findIdx h0find
        rw [List.getD_eq_getElem _ _ hlen0] at h0
        exact (of_decide_eq_false hfalse) h0
  · rw [interp_fixture_eval]
    rfl

/-- C7 witness: the index-selection contract instantiated on the spec
fixture timestamps [0, 500, 1000] at offset 750. -/
theorem step_interpolation_greatest_index_witness :
    (([0, 500, 1000] : List ℚ) ≠ [] ∧
     List.Sorted (· ≤ ·) ([0, 500, 1000] : List ℚ)) ∧
    (selAux ([0, 500, 1000] : List ℚ) 750 0 0 < ([0, 500, 1000] : List ℚ).length ∧
     (∀ j, j < ([0, 500, 1000] : List ℚ).length →
       ([0, 500, 1000] : List ℚ).getD j 0 ≤ 750 →
       j ≤ selAux ([0, 500, 1000] : List ℚ) 750 0 0) ∧
     ((∃ j, j < ([0, 500, 1000] : List ℚ).length ∧
        ([0, 500, 1000] : List ℚ).getD j 0 ≤ 750) →
       ([0, 500, 1000] : List ℚ).getD (selAux ([0, 500, 1000] : List ℚ) 750 0 0) 0
         ≤ 750) ∧
     (750 < ([0, 500, 1000] : List ℚ).getD 0 0 →
       selAux ([0, 500, 1000] : List ℚ) 750 0 0 = 0)) := by
  have hne : ([0, 500, 1000] : List ℚ) ≠ [] := by simp
  have hs : List.Sorted (· ≤ ·) ([0, 500, 1000] : List ℚ) := by
    norm_num [List.sorted_cons]
  exact ⟨⟨hne, hs⟩, step_interpolation_greatest_index.1 [0, 500, 1000] 750 hne hs⟩

lemma lapContainsB_iff (lap : Lap) (t : ℚ) :
    lapContainsB lap t = true ↔
      ∃ st, lap.lap_start_time_ms = some st ∧ st ≤ t ∧
        t ≤ st + lap.lap_time_ms.getD 0 := by
  cases hst : lap.lap_start_time_ms with
  | none => simp [lapContainsB, hst]
  | some st => simp [lapContainsB, hst]

lemma locatedLap_eq_none_iff (s : ReplayState) (d : Int) (t : ℚ) :
    locatedLap s d t = none ↔
      ¬ ∃ lap ∈ s.laps, lap.driver_id = d ∧ ∃ st,
        lap.lap_start_time_ms = some st ∧ st ≤ t ∧
        t ≤ st + lap.lap_time_ms.getD 0 := by
  rw [show locatedLap s d t
      = (s.laps.filter (fun l => decide (l.driver_id = d))).find?
          (fun lap => lapContainsB lap t) from rfl,
    List.find?_eq_none]
  constructor
  · rintro h ⟨lap, hmem, hdrv, hst⟩
    exact h lap (List.mem_filter.mpr ⟨hmem, by simp [hdrv]⟩)
      ((lapContainsB_iff lap t).mpr hst)
  · intro h lap hmem hc
    obtain ⟨hm1, hm2⟩ := List.mem_filter.mp hmem
    exact h ⟨lap, hm1, by simpa using hm2, (lapContainsB_iff lap t).mp hc⟩

lemma locatedLap_some_mem {s : ReplayState} {d : Int} {t : ℚ} {lap : Lap}
    (hl : locatedLap s d t = some lap) :
    lap ∈ s.laps ∧ lap.driver_id = d ∧ ∃ st,
      lap.lap_start_time_ms = some st ∧ st ≤ t ∧
      t ≤ st + lap.lap_time_ms.getD 0 := by
  have hl2 : (s.laps.filter (fun l => decide (l.driver_id = d))).find?
      (fun l => lapContainsB l t) = some lap := hl
  obtain ⟨hm1, hm2⟩ := List.mem_filter.mp (List.mem_of_find?_eq_some hl2)
  have hp := List.find?_some (p := fun l => lapContainsB l t) hl2
  exact ⟨hm1, by simpa using hm2, (lapContainsB_iff lap t).mp hp⟩

/-- C8: the interpolator returns unavailable exactly when no lap of
the driver has a non-null start time whose closed interval
[start, start + duration] contains the queried time (null durations
counting as 0), or when the telemetry series for the located
(driver, lap_number) is absent or has an empty timestamp array. -/
theorem interpolate_unavailable_iff (s : ReplayState) (d : Int) (t : ℚ) :
    interpolate_position s d t = none ↔
      ((¬ ∃ lap ∈ s.laps, lap.driver_id = d ∧ ∃ st,
          lap.lap_start_time_ms = some st ∧ st ≤ t ∧
          t ≤ st + lap.lap_time_ms.getD 0) ∨
       (∃ lap, locatedLap s d t = some lap ∧
          (telFor s d lap.lap_number = none ∨
           ∃ tel, telFor s d lap.lap_number = some tel ∧ tel.timestamps = []))) := by
  rcases hl : locatedLap s d t with _ | lap
  · constructor
    · intro _
      exact Or.inl ((locatedLap_eq_none_iff s d t).mp hl)
    · intro _
      simp [interpolate_position, hl]
  · rcases ht : telFor s d lap.lap_number with _ | tel
    · constructor
      · intro _
        exact Or.inr ⟨lap, rfl, Or.inl ht⟩
      · intro _
        simp [interpolate_position, hl, ht]
    · by_cases hts : tel.timestamps = []
      · constructor
        · intro _
          exact Or.inr ⟨lap, rfl, Or.inr ⟨tel, ht, hts⟩⟩
        · intro _
          simp [interpolate_position, hl, ht, hts]
      · constructor
        · intro hco
          exfalso
          simp [interpolate_position, hl, ht, hts] at hco
        · rintro (hno | ⟨lap2, hl2, hrest⟩)
          · exfalso
            obtain ⟨hm1, hm2, hst⟩ := locatedLap_some_mem hl
            exact hno ⟨lap, hm1, hm2, hst⟩
          · exfalso
            obtain rfl : lap2 = lap := by injection hl2 with h12; exact h12.symm
            rcases hrest with hnone | ⟨tel2, hsome, hempty⟩
            · rw [ht] at hnone
              exact Option.noConfusion hnone
            · rw [ht] at hsome
              obtain rfl : tel2 = tel := by injection hsome with h12; exact h12.symm
              exact hts hempty

/-- Invariant of a session that has reached the end of its run: the
virtual clock sits at the (fixed) total duration and the stored speed
multiplier is non-negative. -/
def EndInv (total : ℚ) (s : ReplayState) : Prop :=
  s.current_time_ms = total ∧ s.total_duration_ms = total ∧ 0 ≤ s.replay_speed

lemma handleCommand_EndInv {total : ℚ} {s : ReplayState} (c : Command)
    (hInv : EndInv total s)
    (hc : (∀ x, c ≠ Command.seek x) ∧ c ≠ Command.stop) :
    EndInv total (handleCommand s c) := by
  obtain ⟨h1, h2, h3⟩ := hInv
  cases c with
  | play => exact ⟨h1, h2, h3⟩
  | pause => exact ⟨h1, h2, h3⟩
  | stop => exact absurd rfl hc.2
  | seek x => exact absurd rfl (hc.1 x)
  | speed x =>
      refine ⟨h1, h2, ?_⟩
      show (0 : ℚ) ≤ max (1/10) (min 60 (x.getD 1))
      exact le_trans (by norm_num) (le_max_left _ _)
  | other a => exact ⟨h1, h2, h3⟩

lemma tick_EndInv {total : ℚ} {s : ReplayState} (dt : ℚ)
    (hInv : EndInv total s) (hdt : 0 ≤ dt) : EndInv total (tick s dt).1 := by
  obtain ⟨h1, h2, h3⟩ := hInv
  cases hp : s.is_playing with
  | false =>
    simp only [tick, hp]
    exact ⟨h1, h2, h3⟩
  | true =>
    have hge : s.total_duration_ms ≤ s.current_time_ms + dt * 1000 * s.replay_speed := by
      have hnn : 0 ≤ dt * 1000 * s.replay_speed :=
        mul_nonneg (mul_nonneg hdt (by norm_num)) h3
      rw [h1, h2]
      linarith
    simp only [tick, hp, if_true, if_pos hge]
    exact ⟨h2, h2, h3⟩

lemma runLoop_EndInv {total : ℚ} :
    ∀ (inputs : List LoopInput) (s : ReplayState), EndInv total s →
      (∀ inp ∈ inputs, NoSeekStop inp) → (∀ inp ∈ inputs, 0 ≤ dtOf inp) →
      EndInv total (runLoop s inputs).1 := by
  intro inputs
  induction inputs with
  | nil => intro s h _ _; exact h
  | cons inp rest ih =>
    intro s h hns hdt
    have h1 : EndInv total (loopStep s inp).1 := by
      cases inp with
      | cmd c dt =>
        have hnss := hns (LoopInput.cmd c dt) (by simp)
        have hc : (∀ x, c ≠ Command.seek x) ∧ c ≠ Command.stop := by
          cases c with
          | seek x => exact hnss.elim
          | stop => exact hnss.elim
          | play => exact ⟨fun x h => Command.noConfusion h, fun h => Command.noConfusion h⟩
          | pause => exact ⟨fun x h => Command.noConfusion h, fun h => Command.noConfusion h⟩
          | speed y => exact ⟨fun x h => Command.noConfusion h, fun h => Command.noConfusion h⟩
          | other a => exact ⟨fun x h => Command.noConfusion h, fun h => Command.noConfusion h⟩
        have hstep : EndInv total (handleCommand s c) := handleCommand_EndInv c h hc
        have hd : (0 : ℚ) ≤ dt := hdt (LoopInput.cmd c dt) (by simp)
        exact tick_EndInv dt hstep hd
      | timeout dt =>
        exact tick_EndInv dt h (hdt (LoopInput.timeout dt) (by simp))
    have h2 := ih (loopStep s inp).1 h1
      (fun i hi => hns i (by simp [hi]))
      (fun i hi => hdt i (by simp [hi]))
    simpa [runLoop] using h2

/-- C3 counterexample: starting 1000 ms before the end and ticking
past it emits a first finished message; a subsequent play command with
no intervening seek makes the next tick emit a second finished
message, so the whole remaining run carries two finished messages, not
exactly one. -/
theorem finished_twice_cex :
    countFinished (runLoop stateNearEnd
      [LoopInput.timeout 2, LoopInput.cmd Command.play 1,
       LoopInput.timeout 5]).2 = 2 ∧
    (2 : Nat) ≠ 1 := by
  constructor
  · norm_num [runLoop, loopStep, tick, handleCommand, countFinished,
      stateNearEnd, List.countP, List.countP.go]
    simp
  · norm_num

/-- C3 (amended): once the clock has reached total_duration_ms, any
further run without seek or stop commands (non-negative tick deltas,
non-negative stored speed) keeps current_time_ms pinned to
total_duration_ms; a tick taken while playing at the end emits exactly
one finished message and turns the play flag off, and a tick taken
while paused emits nothing — so finished recurs once per resumed play
rather than exactly once overall. -/
theorem finished_replay_behavior :
    (∀ (s : ReplayState) (inputs : List LoopInput),
      s.current_time_ms = s.total_duration_ms → 0 ≤ s.replay_speed →
      (∀ inp ∈ inputs, NoSeekStop inp) → (∀ inp ∈ inputs, 0 ≤ dtOf inp) →
      (runLoop s inputs).1.current_time_ms = s.total_duration_ms) ∧
    (∀ (s : ReplayState) (dt : ℚ),
      s.current_time_ms = s.total_duration_ms → s.is_playing = true →
      0 ≤ dt → 0 ≤ s.replay_speed →
      tick s dt = ({ s with current_time_ms := s.total_duration_ms,
                            is_playing := false }, [OutMsg.finished])) ∧
    (∀ (s : ReplayState) (dt : ℚ), s.is_playing = false → tick s dt = (s, [])) := by
  refine ⟨?_, ?_, ?_⟩
  · intro s inputs h1 h3 hns hdt
    exact (runLoop_EndInv inputs s ⟨h1, rfl, h3⟩ hns hdt).1
  · intro s dt h1 hp hdt h3
    have hge : s.total_duration_ms ≤ s.current_time_ms + dt * 1000 * s.replay_speed := by
      have hnn : 0 ≤ dt * 1000 * s.replay_speed :=
        mul_nonneg (mul_nonneg hdt (by norm_num)) h3
      rw [h1]
      linarith
    simp only [tick, hp, if_true, if_pos hge]
  · intro s dt hp
    simp only [tick, hp]
    rfl

/-- C3 witness: the amended end-of-run behavior at the concrete
finished state, over a run that replays and ticks twice. -/
theorem finished_replay_behavior_witness :
    (stateAtEnd.current_time_ms = stateAtEnd.total_duration_ms ∧
     (0 : ℚ) ≤ stateAtEnd.replay_speed ∧
     (∀ inp ∈ [LoopInput.cmd Command.play 1, LoopInput.timeout 2], NoSeekStop inp) ∧
     (∀ inp ∈ [LoopInput.cmd Command.play 1, LoopInput.timeout 2], 0 ≤ dtOf inp)) ∧
    (runLoop stateAtEnd
      [LoopInput.cmd Command.play 1, LoopInput.timeout 2]).1.current_time_ms
        = stateAtEnd.total_duration_ms ∧
    tick stateAtEnd 3 = (stateAtEnd, []) := by
  have e1 : stateAtEnd.current_time_ms = stateAtEnd.total_duration_ms := rfl
  have e2 : (0 : ℚ) ≤ stateAtEnd.replay_speed := by norm_num [stateAtEnd]
  have e3 : ∀ inp ∈ [LoopInput.cmd Command.play 1, LoopInput.timeout 2],
      NoSeekStop inp := by
    intro inp hi
    rcases List.mem_cons.mp hi with h | hi2
    · subst h; trivial
    · rcases List.mem_cons.mp hi2 with h | hi3
      · subst h; trivial
      · exact absurd hi3 (List.not_mem_nil inp)
  have e4 : ∀ inp ∈ [LoopInput.cmd Command.play 1, LoopInput.timeout 2],
      0 ≤ dtOf inp := by
    intro inp hi
    rcases List.mem_cons.mp hi with h | hi2
    · subst h; show (0:ℚ) ≤ 1; norm_num
    · rcases List.mem_cons.mp hi2 with h | hi3
      · subst h; show (0:ℚ) ≤ 2; norm_num
      · exact absurd hi3 (List.not_mem_nil inp)
  exact ⟨⟨e1, e2, e3, e4⟩,
    finished_replay_behavior.1 stateAtEnd _ e1 e2 e3 e4,
    finished_replay_behavior.2.2 stateAtEnd 3 rfl⟩

end F1Replay
